import Mathlib

/-!
Verification of `bot.py` (i-stam/animal-farm): a daemon that polls a FarmBot
contract and executes a swap when the on-chain signal fires.

Shallow embedding conventions:
* Every remote call site of a cycle is one field of `Env`, holding the result
  that call would return in this cycle (`Except ChainErr _` models a Python
  call that can raise).  Separate call sites get separate fields because the
  chain state may change between calls.
* Executing a cycle returns its outcome together with the `List Call` trace of
  the external calls it performed, in order.
* Python `Decimal` arithmetic is modelled exactly in `ℚ` (web3's `from_wei`
  uses a 999-digit context, and the magnitudes in this program stay far below
  the default 28-significant-digit context, so `Decimal` is exact here).
* The two genuine binary64 float computations of the source
  (`current_apr / 100`, `int(gas_estimate * 1.2)`) are modelled exactly by
  `fl`, round-to-nearest-even with unbounded exponent (faithful far away from
  overflow/underflow, which the uint256-derived magnitudes never approach).
-/

/-- A raised Python exception, identified abstractly. -/
inductive ChainErr where
  | exn (code : Nat) : ChainErr
deriving DecidableEq, Repr

/-- A transaction receipt as consumed by `execute_swap` (fields `status`,
`gasUsed`). -/
structure Receipt where
  status : Nat
  gasUsed : Nat
deriving DecidableEq, Repr

/-- The 4-tuple returned by the contract's `getStatus()` call:
`(currentApr, shouldExecute, ethBalance, usdcBalance)`. -/
structure StatusTuple where
  current_apr : Nat
  should_exec : Bool
  eth_balance : Nat
  usdc_balance : Nat
deriving DecidableEq, Repr

/-- The transaction built by `build_transaction` in `execute_swap`:
value (wei), minimum USDC out (6-decimal units), gas limit, gas price (wei),
nonce. -/
structure TradeIntent where
  value : Nat
  minOut : Int
  gas : Int
  gasPrice : Int
  nonce : Nat
deriving DecidableEq, Repr

/-- One external call performed during a cycle, as recorded in the trace. -/
inductive Call where
  | getStatusC : Call
  | getBalanceC : Call
  | shouldExecuteC : Call
  | defaultSwapAmountC : Call
  | gasPriceC : Call
  | estimateGasC : Call
  | getTxCountC : Call
  | buildTxC : Call
  | signC (i : TradeIntent) : Call
  | sendRawC (i : TradeIntent) : Call
  | waitReceiptC (h : Nat) : Call
deriving DecidableEq, Repr

/-- Is this call a submission (`send_raw_transaction`)? -/
def isSendRaw : Call → Bool
  | .sendRawC _ => true
  | _ => false

/-- Is this call one of the chain-write interface calls named by the spec:
`estimate_gas`, `sign`, `send_raw_transaction`,
`wait_for_transaction_receipt`? -/
def isChainWrite : Call → Bool
  | .estimateGasC => true
  | .signC _ => true
  | .sendRawC _ => true
  | .waitReceiptC _ => true
  | _ => false

deriving instance DecidableEq for Except

/-- The results the chain would hand to each call site during one cycle.
`.error e` means that call raises `e`. -/
structure Env where
  statusR : Except ChainErr StatusTuple
  balanceStatusR : Except ChainErr Nat
  shouldExecuteR : Except ChainErr Bool
  defaultSwapAmountR : Except ChainErr Nat
  balanceSwapR : Except ChainErr Nat
  gasPriceR : Except ChainErr Nat
  estimateGasR : Except ChainErr Nat
  txCountR : Except ChainErr Nat
  buildTxR : Except ChainErr Unit
  sendRawR : Except ChainErr Nat
  waitReceiptR : Except ChainErr Receipt
deriving DecidableEq, Repr

/-- The four configuration attributes set in `FarmBot.__init__` (lines 60-63).
`min_eth_balance` and `slippage_tolerance` are `Decimal` in the source,
modelled exactly as `ℚ`. -/
structure Config where
  poll_interval : Int
  max_gas_price : Int
  min_eth_balance : ℚ
  slippage_tolerance : ℚ
deriving DecidableEq, Repr

/-- The optional environment-variable overrides read by `__init__`, already
parsed (`int(...)` / `Decimal(...)`); `none` means the variable is unset so
the hard-coded default applies. -/
structure EnvVars where
  poll_interval : Option Int
  max_gas_price : Option Int
  min_eth_balance : Option ℚ
  slippage_tolerance : Option ℚ
deriving DecidableEq, Repr

/-- `FarmBot.__init__` configuration loading: each value is the supplied
environment value if present, else the hard-coded default
(300, 50, Decimal 0.1, Decimal 0.05).  The source performs no validation. -/
def mkConfig (ev : EnvVars) : Config where
  poll_interval := ev.poll_interval.getD 300
  max_gas_price := ev.max_gas_price.getD 50
  min_eth_balance := ev.min_eth_balance.getD (1 / 10)
  slippage_tolerance := ev.slippage_tolerance.getD (5 / 100)

/-- Configuration with every override absent (all defaults). -/
def cfgDefault : Config := mkConfig ⟨none, none, none, none⟩

/-- The invariant the spec states for Config (written from the spec's words,
for comparison with `mkConfig`): all four values non-negative and
`slippage_tolerance ∈ [0, 1)`. -/
def specConfigInvariant (c : Config) : Prop :=
  0 ≤ c.poll_interval ∧ 0 ≤ c.max_gas_price ∧ 0 ≤ c.min_eth_balance ∧
    0 ≤ c.slippage_tolerance ∧ c.slippage_tolerance < 1

instance (c : Config) : Decidable (specConfigInvariant c) := by
  unfold specConfigInvariant; infer_instance

/-- Round a rational to the nearest integer, ties to even (the rounding used
by IEEE-754 binary64 and by CPython's int-to-float paths). -/
def roundHalfEven (q : ℚ) : ℤ :=
  let f := ⌊q⌋
  let r := q - (f : ℚ)
  if r < 1 / 2 then f
  else if 1 / 2 < r then f + 1
  else if f % 2 = 0 then f else f + 1

/-- Number of halvings needed to bring `q` below 2 (fuel-bounded so the
recursion is structural); for `1 ≤ q < 2^fuel` this is the floor of
`log2 q`. -/
def log2Fuel : Nat → ℚ → Nat
  | 0, _ => 0
  | fuel + 1, q => if q < 2 then 0 else log2Fuel fuel (q / 2) + 1

/-- Number of doublings needed to bring `q` up to at least 1 (fuel-bounded so
the recursion is structural); used for the floor-log2 of rationals below 1. -/
def clog2Fuel : Nat → ℚ → Nat
  | 0, _ => 0
  | fuel + 1, q => if 1 ≤ q then 0 else clog2Fuel fuel (2 * q) + 1

/-- Floor of the base-2 logarithm of a positive rational.  Fuel 2000 covers
every magnitude reachable from uint256-derived quantities in this program. -/
def floorLog2q (q : ℚ) : ℤ :=
  if 1 ≤ q then (log2Fuel 2000 q : ℤ) else -(clog2Fuel 2000 q : ℤ)

/-- Binary64 rounding of a positive rational, with unbounded exponent:
scale the significand into `[2^52, 2^53)`, round to nearest-even, scale
back. -/
def flPos (q : ℚ) : ℚ :=
  let e : ℤ := floorLog2q q
  let s : ℚ := q * (2 : ℚ) ^ ((52 : ℤ) - e)
  (roundHalfEven s : ℚ) * (2 : ℚ) ^ (e - 52)

/-- The binary64 double nearest to `q` (ties to even), as an exact rational.
Models CPython's correctly rounded `int / int` true division, int-to-float
conversion, float multiplication and float division results (exact away from
the overflow and subnormal ranges, which uint256-derived magnitudes never
approach). -/
def fl (q : ℚ) : ℚ :=
  if q = 0 then 0 else if 0 < q then flPos q else -flPos (-q)

/-- Python `int(...)` applied to a number: truncation toward zero. -/
def pyIntTrunc (q : ℚ) : ℤ :=
  if 0 ≤ q then ⌊q⌋ else -⌊-q⌋

/-- The binary64 value of the Python float literal `1.2`. -/
def float1_2 : ℚ := fl (6 / 5)

/-- `int(gas_estimate * 1.2)` under CPython semantics: the estimate is
converted to the nearest double, multiplied by the double `1.2` with one
rounding, then truncated toward zero. -/
def pyScaleGas (g : Nat) : Int := pyIntTrunc (fl (fl g * float1_2))

/-- `w3.from_wei(n, 'ether')` as an exact `Decimal`: `n / 10^18`. -/
def weiToEth (n : Nat) : ℚ := (n : ℚ) / 10 ^ 18

/-- `w3.to_wei(g, 'gwei')`: `g * 10^9`. -/
def gweiToWei (g : Int) : Int := g * 10 ^ 9

/-- `FarmBot.get_gas_price` (lines 129-137): reads the node gas price and
clamps it to `to_wei(max_gas_price, 'gwei')`; if the read raised, returns the
hard-coded fallback `to_wei(20, 'gwei')`.  The `try` wraps the whole body, so
the function itself never raises. -/
def get_gas_price (cfg : Config) (observed : Except ChainErr Nat) : Int :=
  match observed with
  | .ok gas_price => min (gas_price : Int) (gweiToWei cfg.max_gas_price)
  | .error _ => gweiToWei 20

/-- The hard-coded reference price `eth_price_usd = 2500` used by
`estimate_usdc_output` (line 164). -/
def eth_price_usd : ℚ := 2500

/-- `FarmBot.estimate_usdc_output` (lines 160-166):
`eth_amount * 2500 * (1 - slippage_tolerance)`, in exact `Decimal`
arithmetic. -/
def estimate_usdc_output (cfg : Config) (eth_amount : ℚ) : ℚ :=
  (eth_amount * eth_price_usd) * (1 - cfg.slippage_tolerance)

/-- The dict built by `FarmBot.get_status` (lines 148-155).
`current_apr_percentage` is the Python float `current_apr / 100`;
`contract_usdc_balance` is the float `usdc_balance / 1e6`;
`account_eth_balance` is `float(Decimal)` of the exact ether balance. -/
structure StatusReport where
  current_apr : Nat
  current_apr_percentage : ℚ
  should_execute : Bool
  contract_eth_balance : ℚ
  contract_usdc_balance : ℚ
  account_eth_balance : ℚ
deriving DecidableEq, Repr

/-- The body of `FarmBot.get_status`'s `try` block: the `getStatus()` contract
call, then the `get_eth_balance` read (which has no `try` of its own and is
evaluated inside this one), then the report dict. -/
def get_statusBody (env : Env) : Except ChainErr StatusReport × List Call :=
  match env.statusR with
  | .error e => (.error e, [.getStatusC])
  | .ok tup =>
    match env.balanceStatusR with
    | .error e => (.error e, [.getStatusC, .getBalanceC])
    | .ok balance_wei =>
      (.ok { current_apr := tup.current_apr
             current_apr_percentage := fl ((tup.current_apr : ℚ) / 100)
             should_execute := tup.should_exec
             contract_eth_balance := weiToEth tup.eth_balance
             contract_usdc_balance := fl (fl tup.usdc_balance / 10 ^ 6)
             account_eth_balance := fl (weiToEth balance_wei) },
       [.getStatusC, .getBalanceC])

/-- `FarmBot.get_status` (lines 144-158): on any exception in the body the
`except` clause logs and returns the empty dict, modelled as `none`. -/
def get_status (env : Env) : Option StatusReport × List Call :=
  match get_statusBody env with
  | (.ok report, t) => (some report, t)
  | (.error _, t) => (none, t)

/-- The distinct return paths of `FarmBot.execute_swap`, in source order:
skip on signal (line 175), skip on reserve (line 187), confirmed receipt
(line 236), reverted receipt (line 239), and the outer `except` clause
(line 243).  All but `confirmed` return `False`. -/
inductive SwapOutcome where
  | skippedSignal : SwapOutcome
  | skippedReserve (have_ need : ℚ) : SwapOutcome
  | confirmed (gasUsed : Nat) : SwapOutcome
  | reverted : SwapOutcome
  | failedError (e : ChainErr) : SwapOutcome
deriving DecidableEq, Repr

/-- The boolean `execute_swap` actually returns: `True` only on `confirmed`. -/
def SwapOutcome.toBool : SwapOutcome → Bool
  | .confirmed _ => true
  | _ => false

/-- The body of `FarmBot.execute_swap`'s outer `try` block (lines 170-239),
returning the result (or the uncaught exception) together with the trace of
external calls made, in source order: `shouldExecute()`, `defaultSwapAmount()`,
`get_balance`, gas-price read, `estimate_gas` (its own inner `try`),
`get_transaction_count`, `build_transaction`, `sign_transaction`,
`send_raw_transaction`, `wait_for_transaction_receipt`. -/
def execute_swapBody (cfg : Config) (env : Env) :
    Except ChainErr SwapOutcome × List Call :=
  match env.shouldExecuteR with
  | .error e => (.error e, [.shouldExecuteC])
  | .ok false => (.ok .skippedSignal, [.shouldExecuteC])
  | .ok true =>
    match env.defaultSwapAmountR with
    | .error e => (.error e, [.shouldExecuteC, .defaultSwapAmountC])
    | .ok default_swap_amount =>
      match env.balanceSwapR with
      | .error e => (.error e, [.shouldExecuteC, .defaultSwapAmountC, .getBalanceC])
      | .ok balance_wei =>
        let eth_amount := weiToEth default_swap_amount
        let account_balance := weiToEth balance_wei
        let required_balance := eth_amount + cfg.min_eth_balance + 5 / 100
        if account_balance < required_balance then
          (.ok (.skippedReserve account_balance required_balance),
           [.shouldExecuteC, .defaultSwapAmountC, .getBalanceC])
        else
          let min_usdc_out := estimate_usdc_output cfg eth_amount
          let min_usdc_out_wei := pyIntTrunc (min_usdc_out * 10 ^ 6)
          let gas_price := get_gas_price cfg env.gasPriceR
          let gas_limit : Int :=
            match env.estimateGasR with
            | .ok gas_estimate => pyScaleGas gas_estimate
            | .error _ => 500000
          let t0 : List Call :=
            [.shouldExecuteC, .defaultSwapAmountC, .getBalanceC, .gasPriceC,
             .estimateGasC, .getTxCountC]
          match env.txCountR with
          | .error e => (.error e, t0)
          | .ok nonce =>
            let intent : TradeIntent :=
              ⟨default_swap_amount, min_usdc_out_wei, gas_limit, gas_price, nonce⟩
            match env.buildTxR with
            | .error e => (.error e, t0 ++ [.buildTxC])
            | .ok _ =>
              match env.sendRawR with
              | .error e =>
                (.error e, t0 ++ [.buildTxC, .signC intent, .sendRawC intent])
              | .ok tx_hash =>
                let t1 := t0 ++ [.buildTxC, .signC intent, .sendRawC intent,
                                 .waitReceiptC tx_hash]
                match env.waitReceiptR with
                | .error e => (.error e, t1)
                | .ok receipt =>
                  if receipt.status = 1 then (.ok (.confirmed receipt.gasUsed), t1)
                  else (.ok .reverted, t1)

/-- `FarmBot.execute_swap` (lines 168-243): the body under the outer
`try`/`except Exception`; any exception is caught, logged and turned into a
`False` return (path `failedError`). -/
def execute_swap (cfg : Config) (env : Env) : SwapOutcome × List Call :=
  match execute_swapBody cfg env with
  | (.ok outcome, t) => (outcome, t)
  | (.error e, t) => (.failedError e, t)

/-- The distinct terminations of `FarmBot.run_once`: early return on an empty
status dict (line 253), the no-action branch (line 270), or the result of
`execute_swap` (lines 262-268). -/
inductive RunOutcome where
  | statusFailed : RunOutcome
  | waiting : RunOutcome
  | swapDone (r : SwapOutcome) : RunOutcome
deriving DecidableEq, Repr

/-- `FarmBot.run_once` (lines 245-270): read status (returns early if the
dict is empty), then call `execute_swap` exactly when the report's
`should_execute` flag is set. -/
def run_once (cfg : Config) (env : Env) : RunOutcome × List Call :=
  match get_status env with
  | (none, t) => (.statusFailed, t)
  | (some report, t) =>
    if report.should_execute then
      let (outcome, t2) := execute_swap cfg env
      (.swapDone outcome, t ++ t2)
    else
      (.waiting, t)

/-- `FarmBot.run_daemon` (lines 272-286) restricted to a finite schedule: the
loop body runs `run_once` on each successive chain state, then sleeps.  The
sleep, the `KeyboardInterrupt` handler and the re-raise of loop-level defects
involve no per-cycle logic and stay outside the model. -/
def run_daemon (cfg : Config) (envs : List Env) : List (RunOutcome × List Call) :=
  envs.map (run_once cfg)

/-- Concrete configurations used by the witnesses below. -/
def cfgSlipZero : Config := mkConfig ⟨none, none, none, some 0⟩

def cfgSlipHalf : Config := mkConfig ⟨none, none, none, some (1 / 2)⟩

/-- Concrete chain state for the C2 witness: the status report says execute,
but the `shouldExecute()` re-read in `execute_swap` says no. -/
def envSignalFalse : Env :=
  ⟨.ok ⟨0, true, 0, 0⟩, .ok 0, .ok false, .ok 0, .ok 0, .ok 0, .ok 0, .ok 0,
   .ok (), .ok 0, .ok ⟨1, 0⟩⟩

/-- Concrete chain state for the C8 witness: the status read raises. -/
def envStatusErr : Env :=
  ⟨.error (.exn 5), .ok 0, .ok true, .ok 0, .ok 0, .ok 0, .ok 0, .ok 0,
   .ok (), .ok 0, .ok ⟨1, 0⟩⟩

/-- Chain state for the C3 witness: trade size 1 ether and balance exactly
1 + 0.1 + 0.05 = 1.15 ether, the boundary case of the reserve gate. -/
def envBoundary : Env :=
  ⟨.ok ⟨0, false, 0, 0⟩, .ok 0, .ok true, .ok 1000000000000000000,
   .ok 1150000000000000000, .ok 0, .error (.exn 1), .ok 0, .ok (),
   .error (.exn 2), .ok ⟨1, 0⟩⟩

/-- Chain state for the C5 witness: 2 ether balance, 1 ether trade, failing
gas estimate, everything else succeeding. -/
def envEstimateErr : Env :=
  ⟨.ok ⟨0, false, 0, 0⟩, .ok 0, .ok true, .ok 1000000000000000000,
   .ok 2000000000000000000, .ok 0, .error (.exn 3), .ok 0, .ok (),
   .ok 0, .ok ⟨1, 0⟩⟩

/-- Chain state in which every call raises. -/
def envErr : Env :=
  ⟨.error (.exn 7), .error (.exn 7), .error (.exn 7), .error (.exn 7),
   .error (.exn 7), .error (.exn 7), .error (.exn 7), .error (.exn 7),
   .error (.exn 7), .error (.exn 7), .error (.exn 7)⟩

/-- Chain state reporting a raw APR signal of 1 (i.e. 0.01 percent). -/
def envApr1 : Env :=
  ⟨.ok ⟨1, false, 0, 0⟩, .ok 0, .ok false, .ok 0, .ok 0, .ok 0, .ok 0, .ok 0,
   .ok (), .ok 0, .ok ⟨1, 0⟩⟩

/-- Chain state reporting a raw APR signal of 200 (i.e. 2 percent). -/
def envApr200 : Env :=
  ⟨.ok ⟨200, false, 0, 0⟩, .ok 0, .ok false, .ok 0, .ok 0, .ok 0, .ok 0, .ok 0,
   .ok (), .ok 0, .ok ⟨1, 0⟩⟩

/-- Claim C4: with a non-negative configured ceiling, a successful gas-price
observation yields `min(observed, ceiling)` (ceiling in wei,
`to_wei(max_gas_price, 'gwei')`); an observed price of zero yields 0, not the
fallback; the fallback `to_wei(20, 'gwei')` is returned exactly when the
observation itself raised.  `get_gas_price` is total (the source `try` wraps
its whole body), so it never raises. -/
theorem get_gas_price_min_clamp (cfg : Config) (g : ℕ) (e : ChainErr)
    (hc : 0 ≤ cfg.max_gas_price) :
    get_gas_price cfg (.ok g) = min (g : ℤ) (gweiToWei cfg.max_gas_price) ∧
    get_gas_price cfg (.ok 0) = 0 ∧
    get_gas_price cfg (.error e) = gweiToWei 20 := by
  refine ⟨rfl, ?_, rfl⟩
  have : (0 : ℤ) ≤ gweiToWei cfg.max_gas_price := by
    unfold gweiToWei; positivity
  simp [get_gas_price, this]

/-- Witness for C4 at the default configuration and a concrete observation of
30 gwei. -/
theorem get_gas_price_min_clamp_witness :
    get_gas_price cfgDefault (.ok 30000000000) =
      min ((30000000000 : ℕ) : ℤ) (gweiToWei cfgDefault.max_gas_price) ∧
    get_gas_price cfgDefault (.ok 0) = 0 ∧
    get_gas_price cfgDefault (.error (.exn 0)) = gweiToWei 20 :=
  get_gas_price_min_clamp cfgDefault 30000000000 (.exn 0) (by decide)

/-- Claim C6: the estimator computes
`inputAmount * eth_price_usd * (1 - slippage)`, is monotonically
non-increasing in the slippage tolerance for non-negative input, and equals
`inputAmount * eth_price_usd` at slippage zero. -/
theorem estimate_usdc_output_props (cfg₁ cfg₂ : Config) (amt : ℚ)
    (hamt : 0 ≤ amt) (h0 : 0 ≤ cfg₁.slippage_tolerance)
    (h12 : cfg₁.slippage_tolerance ≤ cfg₂.slippage_tolerance)
    (h1 : cfg₂.slippage_tolerance < 1) :
    estimate_usdc_output cfg₁ amt =
      amt * eth_price_usd * (1 - cfg₁.slippage_tolerance) ∧
    estimate_usdc_output cfg₂ amt ≤ estimate_usdc_output cfg₁ amt ∧
    (cfg₁.slippage_tolerance = 0 →
      estimate_usdc_output cfg₁ amt = amt * eth_price_usd) := by
  refine ⟨rfl, ?_, ?_⟩
  · unfold estimate_usdc_output
    have hp : (0 : ℚ) ≤ amt * eth_price_usd := by
      have : (0 : ℚ) ≤ eth_price_usd := by norm_num [eth_price_usd]
      exact mul_nonneg hamt this
    have hm : 1 - cfg₂.slippage_tolerance ≤ 1 - cfg₁.slippage_tolerance := by
      linarith
    exact mul_le_mul_of_nonneg_left hm hp
  · intro h
    unfold estimate_usdc_output
    rw [h]
    ring

/-- Witness for C6 at slippage values 0 and 1/2 and input amount 2. -/
theorem estimate_usdc_output_props_witness :
    estimate_usdc_output cfgSlipZero 2 =
      2 * eth_price_usd * (1 - cfgSlipZero.slippage_tolerance) ∧
    estimate_usdc_output cfgSlipHalf 2 ≤ estimate_usdc_output cfgSlipZero 2 ∧
    (cfgSlipZero.slippage_tolerance = 0 →
      estimate_usdc_output cfgSlipZero 2 = 2 * eth_price_usd) :=
  estimate_usdc_output_props cfgSlipZero cfgSlipHalf 2 (by norm_num)
    (by norm_num [cfgSlipZero, mkConfig])
    (by norm_num [cfgSlipZero, cfgSlipHalf, mkConfig])
    (by norm_num [cfgSlipHalf, mkConfig])

/-- Claim C10 (counterexample): the constructor performs no validation, so an
environment supplying `SLIPPAGE_TOLERANCE = 2` produces a configuration that
violates the spec's invariant `slippageTolerance ∈ [0, 1)`. -/
theorem mkConfig_unvalidated :
    ¬ specConfigInvariant (mkConfig ⟨none, none, none, some 2⟩) := by
  intro h
  have h5 := h.2.2.2.2
  simp [mkConfig, Option.getD] at h5

/-- Claim C10 (amended): the configuration is read once in `__init__` and
never reassigned (every operation takes it read-only), and the spec's
invariant holds whenever each supplied environment value itself satisfies the
corresponding bound; in particular the hard-coded defaults
(300, 50, 0.1, 0.05) do.  The source validates nothing, so an out-of-range
supplied value is accepted as-is. -/
theorem mkConfig_invariant_of_valid_env (ev : EnvVars)
    (h1 : ∀ p, ev.poll_interval = some p → 0 ≤ p)
    (h2 : ∀ g, ev.max_gas_price = some g → 0 ≤ g)
    (h3 : ∀ r, ev.min_eth_balance = some r → 0 ≤ r)
    (h4 : ∀ s, ev.slippage_tolerance = some s → 0 ≤ s ∧ s < 1) :
    specConfigInvariant (mkConfig ev) := by
  obtain ⟨p, g, r, s⟩ := ev
  refine ⟨?_, ?_, ?_, ?_, ?_⟩
  · cases p with
    | none => norm_num [mkConfig]
    | some p => simpa [mkConfig] using h1 p rfl
  · cases g with
    | none => norm_num [mkConfig]
    | some g => simpa [mkConfig] using h2 g rfl
  · cases r with
    | none => norm_num [mkConfig]
    | some r => simpa [mkConfig] using h3 r rfl
  · cases s with
    | none => norm_num [mkConfig]
    | some s => simpa [mkConfig] using (h4 s rfl).1
  · cases s with
    | none => norm_num [mkConfig]
    | some s => simpa [mkConfig] using (h4 s rfl).2

/-- Witness for the amended C10 at a concrete valid environment. -/
theorem mkConfig_invariant_of_valid_env_witness :
    specConfigInvariant (mkConfig ⟨some 60, none, some (1 / 2), some (1 / 10)⟩) :=
  mkConfig_invariant_of_valid_env ⟨some 60, none, some (1 / 2), some (1 / 10)⟩
    (fun p hp => by injection hp with h; cases h; decide)
    (fun g hg => Option.noConfusion hg)
    (fun r hr => by injection hr with h; cases h; norm_num)
    (fun s hs => by injection hs with h; cases h; constructor <;> norm_num)

/-- The outer catch of `execute_swap` changes only the outcome, never the
trace of calls already made. -/
theorem execute_swap_trace_eq (cfg : Config) (env : Env) :
    (execute_swap cfg env).2 = (execute_swapBody cfg env).2 := by
  unfold execute_swap
  rcases h : execute_swapBody cfg env with ⟨r, t⟩
  cases r <;> simp

/-- The catch in `get_status` changes only the outcome, never the trace. -/
theorem get_status_trace_eq (env : Env) :
    (get_status env).2 = (get_statusBody env).2 := by
  unfold get_status
  rcases h : get_statusBody env with ⟨r, t⟩
  cases r <;> simp

/-- On every path through the body of `execute_swap`, `send_raw_transaction`
appears at most once in the trace. -/
theorem countSend_swapBody (cfg : Config) (env : Env) :
    (execute_swapBody cfg env).2.countP isSendRaw ≤ 1 := by
  unfold execute_swapBody
  repeat' split
  all_goals
    simp only [apply_ite Prod.snd, apply_ite (List.countP isSendRaw)]
  all_goals
    first
    | exact ite_le_one (by simp [isSendRaw, List.countP_cons, List.countP_append])
        (by simp [isSendRaw, List.countP_cons, List.countP_append])
    | simp [isSendRaw, List.countP_cons, List.countP_append]

/-- `get_status` performs only read calls: no submission ever appears in its
trace. -/
theorem countSend_statusBody (env : Env) :
    (get_statusBody env).2.countP isSendRaw = 0 := by
  unfold get_statusBody
  repeat' split
  all_goals simp [isSendRaw, List.countP_cons]

/-- Claim C1: in any cycle, under every possible combination of call results
(success, failure, timeout, reverted receipt), at most one
`send_raw_transaction` call is performed — both by `execute_swap` itself and
by the whole `run_once` cycle containing it. -/
theorem single_submission_per_cycle (cfg : Config) (env : Env) :
    (execute_swap cfg env).2.countP isSendRaw ≤ 1 ∧
    (run_once cfg env).2.countP isSendRaw ≤ 1 := by
  have hswap : (execute_swap cfg env).2.countP isSendRaw ≤ 1 := by
    rw [execute_swap_trace_eq]
    exact countSend_swapBody cfg env
  refine ⟨hswap, ?_⟩
  unfold run_once
  rcases hst : get_status env with ⟨o, t⟩
  have ht : t.countP isSendRaw = 0 := by
    have h0 := countSend_statusBody env
    rw [← get_status_trace_eq, hst] at h0
    exact h0
  cases o with
  | none => simp [ht]
  | some report =>
    rcases hsw : execute_swap cfg env with ⟨o2, t2⟩
    have ht2 : t2.countP isSendRaw ≤ 1 := by
      rw [hsw] at hswap
      exact hswap
    by_cases hflag : report.should_execute
    · simpa [hflag, List.countP_append, ht] using ht2
    · simp [hflag, ht]

/-- Claim C2: when the cycle reaches `execute_swap` and the `shouldExecute()`
oracle read returns `false`, the cycle terminates on the signal-not-met skip
path (log "APR threshold not met, skipping execution", return `False`) having
made only the three read calls — none of the chain-write calls
(`estimate_gas`, `sign`, `send_raw_transaction`,
`wait_for_transaction_receipt`) is ever made. -/
theorem run_once_signal_not_met (cfg : Config) (env : Env) (tup : StatusTuple)
    (w : ℕ) (hs : env.statusR = .ok tup) (hb : env.balanceStatusR = .ok w)
    (hflag : tup.should_exec = true) (hse : env.shouldExecuteR = .ok false) :
    run_once cfg env =
      (.swapDone .skippedSignal, [.getStatusC, .getBalanceC, .shouldExecuteC]) ∧
    ∀ c ∈ (run_once cfg env).2, isChainWrite c = false := by
  have hrun : run_once cfg env =
      (.swapDone .skippedSignal, [.getStatusC, .getBalanceC, .shouldExecuteC]) := by
    unfold run_once get_status get_statusBody execute_swap execute_swapBody
    rw [hs, hb, hse]
    simp [hflag]
  exact ⟨hrun, by rw [hrun]; decide⟩

/-- Witness for C2 at a concrete environment. -/
theorem run_once_signal_not_met_witness :
    run_once cfgDefault envSignalFalse =
      (.swapDone .skippedSignal, [.getStatusC, .getBalanceC, .shouldExecuteC]) ∧
    ∀ c ∈ (run_once cfgDefault envSignalFalse).2, isChainWrite c = false :=
  run_once_signal_not_met cfgDefault envSignalFalse ⟨0, true, 0, 0⟩ 0 rfl rfl rfl rfl

/-- Claim C8: if the oracle `getStatus()` read raises, `get_status` returns
the empty dict and `run_once` returns immediately: the trace of the whole
cycle is the single failed status read — `execute_swap` is never entered and
no chain-write call is made. -/
theorem run_once_oracle_unavailable (cfg : Config) (env : Env) (e : ChainErr)
    (hs : env.statusR = .error e) :
    run_once cfg env = (.statusFailed, [.getStatusC]) ∧
    ∀ c ∈ (run_once cfg env).2, isChainWrite c = false := by
  have hrun : run_once cfg env = (.statusFailed, [.getStatusC]) := by
    unfold run_once get_status get_statusBody
    rw [hs]
  exact ⟨hrun, by rw [hrun]; decide⟩

/-- Witness for C8 at a concrete environment. -/
theorem run_once_oracle_unavailable_witness :
    run_once cfgDefault envStatusErr = (.statusFailed, [.getStatusC]) ∧
    ∀ c ∈ (run_once cfgDefault envStatusErr).2, isChainWrite c = false :=
  run_once_oracle_unavailable cfgDefault envStatusErr (.exn 5) rfl

/-- Claim C3: the reserve gate of `execute_swap` is the strict comparison
`account_balance < eth_amount + min_eth_balance + 0.05` (trade size plus
configured reserve plus the fixed 0.05 gas buffer, all in ether).  Below the
threshold the cycle ends on the insufficient-reserve skip path carrying
`have` and `need`, with only the three read calls in the trace (no
submission, no chain-write); at or above the threshold — in particular at
exact equality — the cycle proceeds past the gate (the gas-price read
happens and the outcome is never the reserve skip). -/
theorem execute_swap_reserve_gate (cfg : Config) (env : Env) (w b : ℕ)
    (hse : env.shouldExecuteR = .ok true)
    (hdw : env.defaultSwapAmountR = .ok w)
    (hb : env.balanceSwapR = .ok b) :
    (weiToEth b < weiToEth w + cfg.min_eth_balance + 5 / 100 →
      execute_swap cfg env =
        (.skippedReserve (weiToEth b) (weiToEth w + cfg.min_eth_balance + 5 / 100),
          [.shouldExecuteC, .defaultSwapAmountC, .getBalanceC]) ∧
      ∀ c ∈ (execute_swap cfg env).2, isChainWrite c = false) ∧
    (¬ weiToEth b < weiToEth w + cfg.min_eth_balance + 5 / 100 →
      Call.gasPriceC ∈ (execute_swap cfg env).2 ∧
      ∀ hv nd, (execute_swap cfg env).1 ≠ .skippedReserve hv nd) := by
  constructor
  · intro hlt
    have hrun : execute_swap cfg env =
        (.skippedReserve (weiToEth b) (weiToEth w + cfg.min_eth_balance + 5 / 100),
          [.shouldExecuteC, .defaultSwapAmountC, .getBalanceC]) := by
      unfold execute_swap execute_swapBody
      rw [hse, hdw, hb]
      simp only [if_pos hlt]
    exact ⟨hrun, by rw [hrun]; dsimp only; decide⟩
  · intro hge
    unfold execute_swap execute_swapBody
    rw [hse, hdw, hb]
    simp only [if_neg hge]
    cases htc : env.txCountR with
    | error e => exact ⟨by simp, fun hv nd => by simp⟩
    | ok nonce =>
      cases hbt : env.buildTxR with
      | error e => exact ⟨by simp, fun hv nd => by simp⟩
      | ok u =>
        cases hsr : env.sendRawR with
        | error e => exact ⟨by simp, fun hv nd => by simp⟩
        | ok hsh =>
          cases hwr : env.waitReceiptR with
          | error e => exact ⟨by simp, fun hv nd => by simp⟩
          | ok rcpt =>
            by_cases hrs : rcpt.status = 1
            · simp only [if_pos hrs]
              exact ⟨by simp, fun hv nd => by simp⟩
            · simp only [if_neg hrs]
              exact ⟨by simp, fun hv nd => by simp⟩

/-- Witness for C3: at the exact boundary balance the cycle proceeds past the
reserve gate. -/
theorem execute_swap_reserve_gate_witness :
    Call.gasPriceC ∈ (execute_swap cfgDefault envBoundary).2 ∧
    ∀ hv nd, (execute_swap cfgDefault envBoundary).1 ≠ .skippedReserve hv nd :=
  (execute_swap_reserve_gate cfgDefault envBoundary 1000000000000000000
      1150000000000000000 rfl rfl rfl).2
    (by norm_num [weiToEth, cfgDefault, mkConfig])

/-- Claim C5: once the cycle passes the signal and reserve gates (and the
nonce fetch and transaction build succeed), a failing `estimate_gas` call
never aborts the cycle — `send_raw_transaction` is still called, with the
fixed fallback gas limit 500000 — while a successful estimate yields the gas
limit `int(gas_estimate * 1.2)` (the +20 percent buffer in CPython float
arithmetic). -/
theorem gas_estimate_failure_not_fatal (cfg : Config) (env : Env) (w b n : ℕ)
    (hse : env.shouldExecuteR = .ok true)
    (hdw : env.defaultSwapAmountR = .ok w)
    (hb : env.balanceSwapR = .ok b)
    (hres : ¬ weiToEth b < weiToEth w + cfg.min_eth_balance + 5 / 100)
    (htc : env.txCountR = .ok n)
    (hbt : env.buildTxR = .ok ()) :
    (∀ e, env.estimateGasR = .error e →
      ∃ i, Call.sendRawC i ∈ (execute_swap cfg env).2 ∧ i.gas = 500000) ∧
    (∀ g, env.estimateGasR = .ok g →
      ∃ i, Call.sendRawC i ∈ (execute_swap cfg env).2 ∧ i.gas = pyScaleGas g) := by
  constructor
  · intro e heg
    unfold execute_swap execute_swapBody
    rw [hse, hdw, hb, heg, htc, hbt]
    simp only [if_neg hres]
    refine ⟨⟨w, pyIntTrunc (estimate_usdc_output cfg (weiToEth w) * 10 ^ 6), 500000,
      get_gas_price cfg env.gasPriceR, n⟩, ?_, rfl⟩
    cases hsr : env.sendRawR with
    | error e2 => simp
    | ok hsh =>
      cases hwr : env.waitReceiptR with
      | error e3 => simp
      | ok rcpt =>
        by_cases hrs : rcpt.status = 1
        · simp [if_pos hrs]
        · simp [if_neg hrs]
  · intro g heg
    unfold execute_swap execute_swapBody
    rw [hse, hdw, hb, heg, htc, hbt]
    simp only [if_neg hres]
    refine ⟨⟨w, pyIntTrunc (estimate_usdc_output cfg (weiToEth w) * 10 ^ 6), pyScaleGas g,
      get_gas_price cfg env.gasPriceR, n⟩, ?_, rfl⟩
    cases hsr : env.sendRawR with
    | error e2 => simp
    | ok hsh =>
      cases hwr : env.waitReceiptR with
      | error e3 => simp
      | ok rcpt =>
        by_cases hrs : rcpt.status = 1
        · simp [if_pos hrs]
        · simp [if_neg hrs]

/-- Witness for C5: with the concrete failing estimate the transaction is
still submitted with gas limit 500000. -/
theorem gas_estimate_failure_not_fatal_witness :
    ∃ i, Call.sendRawC i ∈ (execute_swap cfgDefault envEstimateErr).2 ∧
      i.gas = 500000 :=
  (gas_estimate_failure_not_fatal cfgDefault envEstimateErr 1000000000000000000
      2000000000000000000 0 rfl rfl rfl
      (by norm_num [weiToEth, cfgDefault, mkConfig]) rfl rfl).1 (.exn 3) rfl

/-- Claim C7: every per-cycle failure is contained.  Any exception escaping
the body of `execute_swap` is caught by its `except Exception` clause and
converted into the non-crashing `False` return, and any exception escaping
the body of `get_status` is caught and converted into the empty dict;
`run_once` is built from exactly these two caught computations plus pure
code, so it is total — a value, never an exception — for every environment,
and the daemon loop therefore completes every scheduled cycle (one outcome
per cycle).  Only defects of the loop driver itself, which sit outside the
per-cycle path modelled here, can propagate (`run_daemon` re-raises them
after logging). -/
theorem per_cycle_errors_contained (cfg : Config) (env : Env) (e : ChainErr)
    (envs : List Env) :
    ((execute_swapBody cfg env).1 = .error e →
      execute_swap cfg env = (.failedError e, (execute_swapBody cfg env).2)) ∧
    ((get_statusBody env).1 = .error e →
      get_status env = (none, (get_statusBody env).2)) ∧
    (run_daemon cfg envs).length = envs.length := by
  refine ⟨?_, ?_, by simp [run_daemon]⟩
  · intro h
    unfold execute_swap
    rcases hb : execute_swapBody cfg env with ⟨r, t⟩
    rw [hb] at h
    have hr : r = .error e := h
    subst hr
    simp
  · intro h
    unfold get_status
    rcases hb : get_statusBody env with ⟨r, t⟩
    rw [hb] at h
    have hr : r = .error e := h
    subst hr
    simp

/-- Witness for C7: with every chain call failing, both catch sites recover
into their non-crashing results. -/
theorem per_cycle_errors_contained_witness :
    execute_swap cfgDefault envErr =
      (.failedError (.exn 7), (execute_swapBody cfgDefault envErr).2) ∧
    get_status envErr = (none, (get_statusBody envErr).2) :=
  ⟨(per_cycle_errors_contained cfgDefault envErr (.exn 7) []).1 (by decide),
   (per_cycle_errors_contained cfgDefault envErr (.exn 7) []).2.1 (by decide)⟩

/-- Rounding an integer changes nothing. -/
theorem roundHalfEven_intCast (z : ℤ) : roundHalfEven (z : ℚ) = z := by
  unfold roundHalfEven
  simp [Int.floor_intCast]

/-- `log2Fuel` brackets its argument between consecutive powers of two
whenever the fuel covers the magnitude. -/
theorem log2Fuel_spec : ∀ (f : ℕ) (q : ℚ), 1 ≤ q → q < 2 ^ f →
    (2 : ℚ) ^ log2Fuel f q ≤ q ∧ q < 2 ^ (log2Fuel f q + 1) := by
  intro f
  induction f with
  | zero =>
    intro q h1 h2
    rw [pow_zero] at h2
    exact absurd (lt_of_le_of_lt h1 h2) (lt_irrefl 1)
  | succ f ih =>
    intro q h1 h2
    by_cases hq : q < 2
    · rw [log2Fuel]
      simp only [if_pos hq]
      exact ⟨by simpa using h1, by simpa using hq⟩
    · push_neg at hq
      have h1' : 1 ≤ q / 2 := by
        rw [le_div_iff₀ (by norm_num : (0:ℚ) < 2)]
        linarith
      have h2' : q / 2 < 2 ^ f := by
        rw [div_lt_iff₀ (by norm_num : (0:ℚ) < 2)]
        calc q < 2 ^ (f + 1) := h2
        _ = 2 ^ f * 2 := by ring
      obtain ⟨ha, hb⟩ := ih (q / 2) h1' h2'
      rw [log2Fuel]
      simp only [if_neg (not_lt.mpr hq)]
      constructor
      · rw [pow_succ]
        rw [le_div_iff₀ (by norm_num : (0:ℚ) < 2)] at ha
        linarith
      · rw [div_lt_iff₀ (by norm_num : (0:ℚ) < 2)] at hb
        rw [pow_succ]
        exact hb

/-- `clog2Fuel` scales its argument into `[1, 2)` whenever the fuel covers
the magnitude. -/
theorem clog2Fuel_spec : ∀ (f : ℕ) (q : ℚ), 0 < q → q < 2 → 1 ≤ q * 2 ^ f →
    1 ≤ q * 2 ^ clog2Fuel f q ∧ q * 2 ^ clog2Fuel f q < 2 := by
  intro f
  induction f with
  | zero =>
    intro q h0 h2 hf
    rw [pow_zero, mul_one] at hf
    rw [clog2Fuel]
    simp only [pow_zero, mul_one]
    exact ⟨hf, h2⟩
  | succ f ih =>
    intro q h0 h2 hf
    by_cases hq : 1 ≤ q
    · rw [clog2Fuel]
      simp only [if_pos hq, pow_zero, mul_one]
      exact ⟨hq, h2⟩
    · push_neg at hq
      have h0' : 0 < 2 * q := by linarith
      have h2' : 2 * q < 2 := by linarith
      have hf' : 1 ≤ 2 * q * 2 ^ f := by
        calc (1:ℚ) ≤ q * 2 ^ (f + 1) := hf
        _ = 2 * q * 2 ^ f := by ring
      obtain ⟨ha, hb⟩ := ih (2 * q) h0' h2' hf'
      rw [clog2Fuel]
      simp only [if_neg (not_le.mpr hq)]
      constructor
      · calc (1:ℚ) ≤ 2 * q * 2 ^ clog2Fuel f (2 * q) := ha
        _ = q * 2 ^ (clog2Fuel f (2 * q) + 1) := by ring
      · calc q * 2 ^ (clog2Fuel f (2 * q) + 1) = 2 * q * 2 ^ clog2Fuel f (2 * q) := by ring
        _ < 2 := hb

/-- For positive rationals within the fuel range, `floorLog2q` brackets its
argument between consecutive powers of two. -/
theorem floorLog2q_spec (q : ℚ) (h0 : 0 < q) (hlo : 1 ≤ q * 2 ^ (2000 : ℕ))
    (hhi : q < 2 ^ (2000 : ℕ)) :
    (2 : ℚ) ^ floorLog2q q ≤ q ∧ q < (2 : ℚ) ^ (floorLog2q q + 1) := by
  unfold floorLog2q
  by_cases hq : 1 ≤ q
  · simp only [if_pos hq]
    obtain ⟨ha, hb⟩ := log2Fuel_spec 2000 q hq hhi
    constructor
    · rw [zpow_natCast]
      exact ha
    · have hcast : ((log2Fuel 2000 q : ℤ) + 1) = ((log2Fuel 2000 q + 1 : ℕ) : ℤ) := by
        push_cast
        ring
      rw [hcast, zpow_natCast]
      exact hb
  · simp only [if_neg hq]
    push_neg at hq
    obtain ⟨ha, hb⟩ := clog2Fuel_spec 2000 q h0 (by linarith) hlo
    have hpow : (0:ℚ) < 2 ^ clog2Fuel 2000 q := by positivity
    constructor
    · rw [zpow_neg, zpow_natCast]
      rw [inv_le_iff_one_le_mul₀ hpow]
      linarith [ha]
    · have hcast : (-(clog2Fuel 2000 q : ℤ) + 1) = (1 - (clog2Fuel 2000 q : ℤ)) := by
        ring
      rw [hcast, zpow_sub₀ (by norm_num : (2:ℚ) ≠ 0), zpow_one, zpow_natCast]
      rw [lt_div_iff₀ hpow]
      linarith [hb]

/-- The dyadic bracket determines `floorLog2q` uniquely. -/
theorem floorLog2q_unique (q : ℚ) (e : ℤ) (h0 : 0 < q)
    (hlo : 1 ≤ q * 2 ^ (2000 : ℕ)) (hhi : q < 2 ^ (2000 : ℕ))
    (h1 : (2 : ℚ) ^ e ≤ q) (h2 : q < (2 : ℚ) ^ (e + 1)) : floorLog2q q = e := by
  obtain ⟨ha, hb⟩ := floorLog2q_spec q h0 hlo hhi
  have hx : (2 : ℚ) ^ floorLog2q q < 2 ^ (e + 1) := lt_of_le_of_lt ha h2
  have hy : (2 : ℚ) ^ e < 2 ^ (floorLog2q q + 1) := lt_of_le_of_lt h1 hb
  rw [zpow_lt_zpow_iff_right₀ (by norm_num : (1:ℚ) < 2)] at hx hy
  omega

/-- Unfolding `fl` at a positive rational with known exponent. -/
theorem fl_eq_of_floorLog2q (q : ℚ) (e : ℤ) (h0 : 0 < q)
    (he : floorLog2q q = e) :
    fl q = (roundHalfEven (q * (2 : ℚ) ^ ((52 : ℤ) - e)) : ℚ) * (2 : ℚ) ^ (e - 52) := by
  rw [fl, if_neg h0.ne', if_pos h0]
  unfold flPos
  rw [he]

/-- Integers up to `2^53` are exactly representable in binary64: `fl` is the
identity on them. -/
theorem fl_natCast (j : ℕ) (hj : j ≤ 2 ^ 53) : fl (j : ℚ) = j := by
  rcases Nat.eq_zero_or_pos j with h0 | h0
  · subst h0
    simp [fl]
  · have hq0 : (0:ℚ) < j := by exact_mod_cast h0
    have h1q : (1:ℚ) ≤ j := by exact_mod_cast h0
    have hj' : (j:ℚ) ≤ 2 ^ (53:ℕ) := by exact_mod_cast hj
    have hhi : (j:ℚ) < 2 ^ (2000:ℕ) := by
      calc (j:ℚ) ≤ 2 ^ (53:ℕ) := hj'
      _ < 2 ^ (2000:ℕ) := by
        exact pow_lt_pow_right₀ (by norm_num) (by norm_num)
    have h2k : (1:ℚ) ≤ 2 ^ (2000:ℕ) := one_le_pow₀ (by norm_num)
    have hlo : (1:ℚ) ≤ (j:ℚ) * 2 ^ (2000:ℕ) := by nlinarith
    set k := log2Fuel 2000 ((j:ℚ)) with hkdef
    have he : floorLog2q ((j:ℚ)) = (k:ℤ) := by
      unfold floorLog2q
      rw [if_pos h1q]
    obtain ⟨ha, hb⟩ := log2Fuel_spec 2000 ((j:ℚ)) h1q hhi
    rw [← hkdef] at ha hb
    have hk53 : k ≤ 53 := by
      by_contra hk
      push_neg at hk
      have hp : (2:ℚ) ^ (54:ℕ) ≤ 2 ^ k := pow_le_pow_right₀ (by norm_num) (by omega)
      have : (2:ℚ) ^ (53:ℕ) < 2 ^ k := lt_of_lt_of_le (by norm_num) hp
      linarith
    rw [fl_eq_of_floorLog2q ((j:ℚ)) (k:ℤ) hq0 he]
    by_cases hk52 : k ≤ 52
    · have hcast : ((52:ℤ) - (k:ℤ)) = ((52 - k : ℕ) : ℤ) := by omega
      rw [hcast, zpow_natCast]
      have hs : (j:ℚ) * 2 ^ (52 - k : ℕ) = ((j * 2 ^ (52 - k) : ℕ) : ℚ) := by
        push_cast
        ring
      rw [hs]
      have hr : roundHalfEven ((j * 2 ^ (52 - k) : ℕ) : ℚ) = ((j * 2 ^ (52 - k) : ℕ) : ℤ) := by
        have h := roundHalfEven_intCast ((j * 2 ^ (52 - k) : ℕ) : ℤ)
        rw [Int.cast_natCast] at h
        exact h
      rw [hr]
      push_cast
      rw [mul_assoc, ← zpow_natCast (2:ℚ) (52 - k), ← zpow_add₀ (by norm_num : (2:ℚ) ≠ 0)]
      have hz : ((52 - k : ℕ) : ℤ) + ((k:ℤ) - 52) = 0 := by omega
      rw [hz, zpow_zero, mul_one]
    · have hk : k = 53 := by omega
      have hj2 : (j:ℚ) = 2 ^ (53:ℕ) := by
        rw [hk] at ha
        linarith
      rw [hk, hj2]
      simp only [Nat.cast_ofNat]
      have hs : (2:ℚ) ^ (53:ℕ) * (2:ℚ) ^ ((52:ℤ) - (53:ℤ)) = ((4503599627370496 : ℤ) : ℚ) := by
        rw [← zpow_natCast (2:ℚ) 53, ← zpow_add₀ (by norm_num : (2:ℚ) ≠ 0)]
        norm_num
      rw [hs, roundHalfEven_intCast]
      push_cast
      norm_num

/-- The binary64 value of `1/100` (the Python float `0.01`), which is not
`1/100` itself: the significand `2^59/100 = 5764607523034234.88` rounds up. -/
theorem fl_centi : fl ((1:ℚ) / 100) = 5764607523034235 / 576460752303423488 := by
  have he : floorLog2q ((1:ℚ) / 100) = (-7 : ℤ) := by
    apply floorLog2q_unique
    · norm_num
    · norm_num
    · norm_num
    · norm_num
    · norm_num
  rw [fl_eq_of_floorLog2q _ (-7 : ℤ) (by norm_num) he]
  have harg : (1:ℚ) / 100 * (2:ℚ) ^ ((52:ℤ) - (-7:ℤ)) = 144115188075855872 / 25 := by
    norm_num
  rw [harg]
  have hfl : ⌊(144115188075855872:ℚ) / 25⌋ = 5764607523034234 := by
    rw [Int.floor_eq_iff]
    constructor <;> norm_num
  have hrhe : roundHalfEven ((144115188075855872:ℚ) / 25) = 5764607523034235 := by
    rw [roundHalfEven]
    norm_num [hfl]
  rw [hrhe]
  norm_num

/-- Claim C9 (counterexample): for raw signal 1 the reported
`current_apr_percentage` is the Python float `1 / 100`, which is the binary64
double nearest to 1/100 and differs from the exact rational 1/100 — the
claim's "exactly equals rawSignal / 100" fails. -/
theorem apr_percentage_inexact :
    (get_status envApr1).1.map StatusReport.current_apr_percentage ≠
      some ((1:ℚ) / 100) := by
  unfold get_status get_statusBody envApr1
  simp only [Option.map_some]
  intro h
  have h2 : fl (((1:ℕ) : ℚ) / 100) = (1:ℚ) / 100 := by
    injection h
  rw [Nat.cast_one, fl_centi] at h2
  norm_num at h2

/-- Claim C9 (amended): the reported percentage is the binary64 rounding of
`rawSignal / 100` (CPython `int / int` true division is correctly rounded),
so it equals `rawSignal / 100` exactly whenever that quotient is
representable — in particular for every raw signal that is a multiple of 100
up to `2^53 * 100` — but not in general (raw signal 1 is a counterexample).
The transform remains pure and deterministic, and its rounding error is far
below the signal's 1/100-percent fixed-point scale. -/
theorem apr_percentage_exact_on_multiples (env : Env) (n j eb ub w : ℕ)
    (bflag : Bool) (hn : n = 100 * j) (hj : j ≤ 2 ^ 53)
    (hs : env.statusR = .ok ⟨n, bflag, eb, ub⟩)
    (hbal : env.balanceStatusR = .ok w) :
    ∃ report t, get_status env = (some report, t) ∧
      report.current_apr_percentage = (n : ℚ) / 100 := by
  unfold get_status get_statusBody
  rw [hs, hbal]
  refine ⟨_, _, rfl, ?_⟩
  show fl ((n : ℚ) / 100) = (n : ℚ) / 100
  subst hn
  have hq : ((100 * j : ℕ) : ℚ) / 100 = (j : ℚ) := by
    push_cast
    ring
  rw [hq, fl_natCast j hj]

/-- Witness for the amended C9: raw signal 200 reports exactly 2 percent. -/
theorem apr_percentage_exact_on_multiples_witness :
    ∃ report t, get_status envApr200 = (some report, t) ∧
      report.current_apr_percentage = ((200:ℕ) : ℚ) / 100 :=
  apr_percentage_exact_on_multiples envApr200 200 2 0 0 0 false (by norm_num)
    (by norm_num) rfl rfl
